import Mathlib

/-!
Verification of the emojify repository (src/emojify.py) against its
natural-language specification.

The development shallowly embeds the program:

* `shlexSplit` models Python's `shlex.split` (posix mode, whitespace_split,
  no comment chars), the tokenizer used by `parse_command_line`.
* `parseTokens` models the `argparse` parser built in `parse_command_line`:
  a parser with subcommands `create` (positionals name, url), `delete`
  (name) and `alias` (name, target), whose `error` method raises instead of
  exiting, but whose default `-h`/`--help` option still prints help and
  raises SystemExit.  Token classification (`classifyC`) follows
  `argparse._parse_optional` for a parser whose only option is the help
  option, spelled `-h` or `--help`.
* `wandCrop` models the wand library's `Image.crop(left, top, right,
  bottom)`: the kept region is `[left, right) x [top, bottom)` (right and
  bottom are exclusive, the new width is `right - left`), negative
  coordinates wrap by adding the image dimension, coordinates larger than
  the dimension raise, and a resulting width or height below 1 raises.
* `square_crop_and_resize`, `upload_emoji`, `delete_emoji`, `alias_emoji`,
  `emojify` and `dispatch` are the repository's functions, with external
  effects (HTTP calls, SNS publish, callback POSTs) made explicit in the
  result types, and environment/event lookups passed as `Option` inputs
  (`none` models a missing key, i.e. a raised KeyError / decode failure).

Exception messages are modelled as plain strings; the exact wording of
Python's messages is abbreviated but their presence/absence is faithful.
-/

namespace EmojifySpec

/-! ### Model of shlex.split (posix, whitespace_split) -/

/-- The whitespace characters of `shlex` (`shlex.whitespace`). -/
def wsChars : List Char := [' ', '\t', '\r', '\n']

/-- The backslash escape character. -/
def bslash : Char := Char.ofNat 92

/-- The single-quote character. -/
def squoteChar : Char := Char.ofNat 39

/-- The double-quote character. -/
def dquoteChar : Char := Char.ofNat 34

/-- Lexer states of `shlex.read_token`: between tokens, inside a word,
inside single quotes, inside double quotes, after a backslash in a word,
after a backslash inside double quotes. -/
inductive LexSt where
  | ws | word | squote | dquote | escWord | escDquote
  deriving DecidableEq, Repr

/-- Emit the current token: in posix mode an empty token is produced only
if a quote was seen (`if self.posix and not quoted and result == ''`). -/
def emitTok (acc : List String) (tok : List Char) (quoted : Bool) : List String :=
  if tok.isEmpty && !quoted then acc else acc ++ [String.mk tok]

/-- The state machine of `shlex.read_token` with `posix=True`,
`whitespace_split=True`, quotes `'` and `"`, escape `\`, escaped quotes
`"` only, run to completion over the whole input. -/
def shlexGo : LexSt → List Char → Bool → List String → List Char →
    Except String (List String)
  | .ws, _, _, acc, [] => .ok acc
  | .ws, tok, quoted, acc, c :: rest =>
      if c ∈ wsChars then shlexGo .ws [] false acc rest
      else if c = bslash then shlexGo .escWord tok quoted acc rest
      else if c = squoteChar then shlexGo .squote tok true acc rest
      else if c = dquoteChar then shlexGo .dquote tok true acc rest
      else shlexGo .word (tok ++ [c]) quoted acc rest
  | .word, tok, quoted, acc, [] => .ok (emitTok acc tok quoted)
  | .word, tok, quoted, acc, c :: rest =>
      if c ∈ wsChars then shlexGo .ws [] false (emitTok acc tok quoted) rest
      else if c = bslash then shlexGo .escWord tok quoted acc rest
      else if c = squoteChar then shlexGo .squote tok true acc rest
      else if c = dquoteChar then shlexGo .dquote tok true acc rest
      else shlexGo .word (tok ++ [c]) quoted acc rest
  | .squote, _, _, _, [] => .error "No closing quotation"
  | .squote, tok, quoted, acc, c :: rest =>
      if c = squoteChar then shlexGo .word tok quoted acc rest
      else shlexGo .squote (tok ++ [c]) quoted acc rest
  | .dquote, _, _, _, [] => .error "No closing quotation"
  | .dquote, tok, quoted, acc, c :: rest =>
      if c = dquoteChar then shlexGo .word tok quoted acc rest
      else if c = bslash then shlexGo .escDquote tok quoted acc rest
      else shlexGo .dquote (tok ++ [c]) quoted acc rest
  | .escWord, _, _, _, [] => .error "No escaped character"
  | .escWord, tok, quoted, acc, c :: rest => shlexGo .word (tok ++ [c]) quoted acc rest
  | .escDquote, _, _, _, [] => .error "No escaped character"
  | .escDquote, tok, quoted, acc, c :: rest =>
      if c = dquoteChar ∨ c = bslash then shlexGo .dquote (tok ++ [c]) quoted acc rest
      else shlexGo .dquote (tok ++ [bslash, c]) quoted acc rest

/-- Model of `shlex.split(cmdline)` as called by `parse_command_line`;
`.error` models the `ValueError` raised on malformed quoting. -/
def shlexSplit (s : String) : Except String (List String) :=
  shlexGo .ws [] false [] s.data

/-! ### Model of the argparse command parser -/

/-- The structured command carried by a parsed `Namespace`: the subparser
chosen (which fixes `args.func`) together with its positional arguments. -/
inductive Command where
  | create (name url : String)
  | delete (name : String)
  | aliasCmd (name target : String)
  deriving DecidableEq, Repr

/-- How `argparse._parse_optional` classifies one argument string, for a
parser whose only registered option is `-h`/`--help` (with abbreviations
allowed) and whose prefix character is `-`. -/
inductive TokKind where
  | positional   -- treated as a positional argument value
  | helpTok      -- the help option: prints help and raises SystemExit
  | helpArgErr   -- help with an explicit argument: "ignored explicit argument"
  | unknownOpt   -- an unrecognized option, collected into extras
  | sep          -- the literal -- separator
  deriving DecidableEq, Repr

/-- Matches the regular expression `^-\d+$|^-\d*\.\d+$` applied to the
characters after the leading dash (argparse's negative-number matcher). -/
def digitsDot : List Char → Bool
  | [] => false
  | c :: rest =>
      if c = '.' then !rest.isEmpty && rest.all Char.isDigit
      else c.isDigit && digitsDot rest

/-- Negative-number test of `argparse` on a full token. -/
def isNegNumC (cs : List Char) : Bool :=
  match cs with
  | c :: rest =>
      (c == '-') &&
        ((!rest.isEmpty && rest.all Char.isDigit) || digitsDot rest)
  | [] => false

/-- Characters of a token before its first `=`, if any. -/
def takeUntilEq : List Char → Option (List Char)
  | [] => none
  | c :: rest => if c = '=' then some [] else (takeUntilEq rest).map (fun p => c :: p)

/-- Does the part before `=` name the help option (exactly or as an
unambiguous `--help` abbreviation)? -/
def helpEqPre (cs : List Char) : Bool :=
  match takeUntilEq cs with
  | some p =>
      (p == ['-', '-', 'h']) || (p == ['-', '-', 'h', 'e']) ||
      (p == ['-', '-', 'h', 'e', 'l']) || (p == ['-', '-', 'h', 'e', 'l', 'p'])
  | none => false

/-- Classification of one token, following `argparse._parse_optional`:
an empty token, a token not starting with `-`, a lone `-`, a negative
number, or a token containing a space is positional; `-h`, `--help` and
the abbreviations `--h`, `--he`, `--hel` are the help option; `-h<arg>`
and `--h...=<arg>` are the help option with an ignored explicit argument;
`--` is the positional separator; anything else starting with `-` is an
unknown option. -/
def classifyC (cs : List Char) : TokKind :=
  match cs with
  | [] => .positional
  | c :: rest =>
      if c ≠ '-' then .positional
      else if cs = ['-', 'h'] ∨ cs = ['-', '-', 'h', 'e', 'l', 'p'] then .helpTok
      else if rest = [] then .positional
      else if cs = ['-', '-', 'h'] ∨ cs = ['-', '-', 'h', 'e'] ∨
              cs = ['-', '-', 'h', 'e', 'l'] then .helpTok
      else if cs = ['-', '-'] then .sep
      else
        match rest with
        | 'h' :: _ :: _ => .helpArgErr
        | _ =>
            if helpEqPre cs then .helpArgErr
            else if isNegNumC cs then .positional
            else if rest.contains ' ' then .positional
            else .unknownOpt

/-- Classification of a token string. -/
def classify (t : String) : TokKind := classifyC t.data

/-- The positional arity registered for each subparser by
`parse_command_line`; `none` for an unknown subcommand name. -/
def arityOf (t : String) : Option Nat :=
  if t = "create" then some 2
  else if t = "delete" then some 1
  else if t = "alias" then some 2
  else none

/-- Outcome of `parse_command_line`.  `parsed none` is the `Namespace`
produced when no subcommand was supplied (no `func` attribute is set);
`errValue` is an exception raised by the overridden `error` method or by
`shlex`; `helpExit` is argparse's help action, which prints the help text
to the console and raises `SystemExit` (the `error` override does not
intercept it). -/
inductive ParseResult where
  | parsed (cmd : Option Command)
  | errValue (msg : String)
  | helpExit
  deriving DecidableEq, Repr

/-- Build the parsed command once the positional values of a subparser are
known (the unreachable catch-all returns an internal error). -/
def finalizeCmd (cmdName : String) (pos : List String) : ParseResult :=
  match cmdName, pos with
  | "create", [n, u] => .parsed (some (Command.create n u))
  | "delete", [n] => .parsed (some (Command.delete n))
  | "alias", [n, t] => .parsed (some (Command.aliasCmd n t))
  | _, _ => .errValue "internal error"

/-- Scan of a subparser's argument strings (the PARSER-nargs positional
hands every remaining token to the chosen subparser): help exits, help
with an explicit argument raises, unknown options are collected as extras
(reported as unrecognized arguments after parsing), `--` makes the rest
positional, and positionals are accumulated.  At the end, too few
positionals raise the required-arguments error; surplus positionals or any
extras raise the unrecognized-arguments error. -/
def subScan (cmdName : String) (arity : Nat) (topExtras : Bool) :
    List String → List String → Bool → Bool → ParseResult
  | [], pos, subExtras, _ =>
      if pos.length < arity then
        .errValue ("the following arguments are required for " ++ cmdName)
      else if arity < pos.length ∨ subExtras = true ∨ topExtras = true then
        .errValue "unrecognized arguments"
      else finalizeCmd cmdName pos
  | t :: rest, pos, subExtras, sawSep =>
      if sawSep then subScan cmdName arity topExtras rest (pos ++ [t]) subExtras sawSep
      else
        match classify t with
        | .helpTok => .helpExit
        | .helpArgErr => .errValue "ignored explicit argument"
        | .unknownOpt => subScan cmdName arity topExtras rest pos true sawSep
        | .sep => subScan cmdName arity topExtras rest pos subExtras true
        | .positional => subScan cmdName arity topExtras rest (pos ++ [t]) subExtras sawSep

/-- Scan of the top-level parser's argument strings: the first positional
token is the subcommand and all remaining tokens go to its subparser; an
unknown subcommand raises the invalid-choice error; unknown options before
the subcommand are collected and reported as unrecognized arguments; `--`
itself becomes the (invalid) subcommand when followed by anything. -/
def topScan : List String → Bool → ParseResult
  | [], extras =>
      if extras then .errValue "unrecognized arguments" else .parsed none
  | t :: rest, extras =>
      match classify t with
      | .helpTok => .helpExit
      | .helpArgErr => .errValue "ignored explicit argument"
      | .unknownOpt => topScan rest true
      | .sep =>
          if rest.isEmpty then .errValue "unrecognized arguments"
          else .errValue "invalid choice: --"
      | .positional =>
          match arityOf t with
          | some k => subScan t k extras rest [] false false
          | none => .errValue ("invalid choice: " ++ t)

/-- Model of `parser.parse_args(tokens)` for the parser built in
`parse_command_line`. -/
def parseTokens (toks : List String) : ParseResult := topScan toks false

/-- Model of `parse_command_line(cmdline)`: `shlex.split` then
`parse_args`.  A `ValueError` from `shlex` propagates as an exception
value. -/
def parse_command_line (s : String) : ParseResult :=
  match shlexSplit s with
  | .error e => .errValue e
  | .ok toks => parseTokens toks

/-! ### Model of the image normalizer (square_crop_and_resize)

The image is tracked by its dimensions only; pixel content is irrelevant
to every claim about this component.  Coordinates are integers, as in
Python. -/

/-- Image dimensions. -/
structure Dims where
  width : Int
  height : Int
  deriving DecidableEq, Repr

/-- Coordinate normalization of wand's `Image.crop` (its inner `abs_`):
a coordinate larger than the corresponding dimension raises `ValueError`,
a negative coordinate wraps by adding the dimension. -/
def wandAbs (n m : Int) : Except String Int :=
  if n < m then .error "coordinate greater than dimension"
  else if 0 ≤ m then .ok m
  else .ok (n + m)

/-- Model of wand's `Image.crop(left, top, right, bottom)` on the image
dimensions: the kept region is `[left, right) x [top, bottom)`, so the new
width is `right - left` and the new height is `bottom - top`; a width or
height below 1 raises `ValueError`; a crop covering the whole image is a
no-op. -/
def wandCrop (img : Dims) (left top right bottom : Int) : Except String Dims :=
  match wandAbs img.width left, wandAbs img.height top,
        wandAbs img.width right, wandAbs img.height bottom with
  | .error e, _, _, _ => .error e
  | _, .error e, _, _ => .error e
  | _, _, .error e, _ => .error e
  | _, _, _, .error e => .error e
  | .ok l, .ok t, .ok r, .ok b =>
      let w := r - l
      let h := b - t
      if w < 1 then .error "image width cannot be zero"
      else if h < 1 then .error "image height cannot be zero"
      else if l = 0 ∧ t = 0 ∧ w = img.width ∧ h = img.height then .ok img
      else .ok ⟨w, h⟩

/-- The `extra` of `square_crop_and_resize`: how much longer the longest
side is than the shortest. -/
def extraOf (img : Dims) : Int :=
  max img.width img.height - min img.width img.height

/-- Pixels the source intends to remove from the left or top
(`rem_lt = extra // 2`). -/
def rem_lt (img : Dims) : Int := extraOf img / 2

/-- Pixels the source intends to remove from the right or bottom
(`rem_rb = rem_lt + extra % 2`). -/
def rem_rb (img : Dims) : Int := rem_lt img + extraOf img % 2

/-- The crop performed by `square_crop_and_resize` before the assert: the
source passes `image.width - rem_rb - 1` and `image.height - 1` (or the
transposed values) as the exclusive right/bottom coordinates of
`wandCrop`. -/
def cropStep (img : Dims) : Except String Dims :=
  if img.height < img.width then
    wandCrop img (rem_lt img) 0 (img.width - rem_rb img - 1) (img.height - 1)
  else
    wandCrop img 0 (rem_lt img) (img.width - 1) (img.height - rem_rb img - 1)

/-- The pixels actually removed from the two sides of the longer axis by
`cropStep` (for a square image, of the vertical axis): the leading margin
is the left/top coordinate of the kept region, the trailing margin is the
dimension minus the exclusive right/bottom coordinate. -/
def longAxisMargins (img : Dims) : Int × Int :=
  if img.height < img.width then
    (rem_lt img, img.width - (img.width - rem_rb img - 1))
  else
    (rem_lt img, img.height - (img.height - rem_rb img - 1))

/-- Outcome of `square_crop_and_resize`: the final dimensions, a
`ValueError` escaping from wand's crop, or a failure of the
`assert image.width == image.height` statement. -/
inductive NormalizeResult where
  | ok (d : Dims)
  | wandError (msg : String)
  | assertFail
  deriving DecidableEq, Repr

/-- Model of `square_crop_and_resize(image, size)` on the image
dimensions: crop, assert squareness, then `resize(size, size)`. -/
def square_crop_and_resize (img : Dims) (size : Int) : NormalizeResult :=
  match cropStep img with
  | .error m => .wandError m
  | .ok d => if d.width = d.height then .ok ⟨size, size⟩ else .assertFail

/-! ### Model of the emoji directory client

The authenticated session page text (`response_text` returned by
`emoji_session`) is the directory snapshot against which existence is
checked.  The mutating HTTP calls each operation issues are made explicit
in the result; `httpOk` stands for the status check of the response to a
call that was actually issued (`raise_for_status`), and `tokensFound`
for whether the `version_uid` and `api_token` regular expressions match
the page (their failure raises before the delete call is issued). -/

/-- A mutating HTTP call against the Slack emoji endpoints. -/
inductive SlackCall where
  | addEmoji (name : String)
  | removeEmoji (name : String)
  | aliasAdd (name target : String)
  deriving DecidableEq, Repr

/-- Decidable equality for `Except`, needed to evaluate operation results
on concrete inputs. -/
instance {α β : Type} [DecidableEq α] [DecidableEq β] : DecidableEq (Except α β) :=
  fun a b =>
    match a, b with
    | .error x, .error y =>
        if h : x = y then .isTrue (congrArg Except.error h)
        else .isFalse (fun he => h (Except.error.inj he))
    | .ok x, .ok y =>
        if h : x = y then .isTrue (congrArg Except.ok h)
        else .isFalse (fun he => h (Except.ok.inj he))
    | .error _, .ok _ => .isFalse (fun he => Except.noConfusion he)
    | .ok _, .error _ => .isFalse (fun he => Except.noConfusion he)

/-- Result of one directory operation: the mutating calls it issued, and
its result (`error` models a raised exception). -/
structure OpOutcome where
  calls : List SlackCall
  result : Except String Unit
  deriving DecidableEq, Repr

/-- Is `pat` a prefix of `hay`? -/
def isPrefixC : List Char → List Char → Bool
  | [], _ => true
  | _ :: _, [] => false
  | a :: as, b :: bs => a == b && isPrefixC as bs

/-- Is `pat` a contiguous substring of `hay`? -/
def hasInfixC (pat : List Char) : List Char → Bool
  | [] => isPrefixC pat []
  | c :: rest => isPrefixC pat (c :: rest) || hasInfixC pat rest

/-- The existence check used by all three operations: is the canonical
marker `:name:` a substring of the authenticated page text? -/
def emoji_exists (snapshot name : String) : Bool :=
  hasInfixC (":" ++ name ++ ":").data snapshot.data

/-- Model of `upload_emoji` after `emoji_session` has produced the page
`snapshot`: if `:name:` occurs in the page the function raises before any
upload; otherwise it issues the add-emoji POST. -/
def upload_emoji (snapshot : String) (httpOk : Bool) (name : String) : OpOutcome :=
  if emoji_exists snapshot name then
    ⟨[], .error ("Emoji " ++ name ++ " already exists.")⟩
  else
    ⟨[SlackCall.addEmoji name], if httpOk then .ok () else .error "HTTPError"⟩

/-- Model of `delete_emoji`: if `:name:` does not occur in the page the
function raises before any call; next the `version_uid` and `api_token`
regex extraction can raise (`AttributeError` on a non-matching page), also
before any call; otherwise the remove POST is issued. -/
def delete_emoji (snapshot : String) (tokensFound httpOk : Bool) (name : String) :
    OpOutcome :=
  if emoji_exists snapshot name = false then
    ⟨[], .error ("Emoji " ++ name ++ " does not exist.")⟩
  else if tokensFound = false then
    ⟨[], .error "AttributeError: regex did not match page"⟩
  else
    ⟨[SlackCall.removeEmoji name], if httpOk then .ok () else .error "HTTPError"⟩

/-- Model of `alias_emoji`: raises if `:name:` already occurs, then raises
if `:target:` does not occur, both before any call; otherwise the alias
POST is issued. -/
def alias_emoji (snapshot : String) (httpOk : Bool) (name target : String) :
    OpOutcome :=
  if emoji_exists snapshot name then
    ⟨[], .error ("Emoji " ++ name ++ " already exists.")⟩
  else if emoji_exists snapshot target = false then
    ⟨[], .error ("Emoji " ++ target ++ " does not exist.")⟩
  else
    ⟨[SlackCall.aliasAdd name target], if httpOk then .ok () else .error "HTTPError"⟩

/-! ### Model of the Stage-2 worker (emojify) -/

/-- The environment variables read by `emojify`; `none` models a missing
variable (a raised KeyError). -/
structure Stage2Env where
  team : Option String
  email : Option String
  password : Option String

/-- The decoded SNS message; a field is `none` when the corresponding key
is absent from the JSON object. -/
structure SnsMessage where
  response_url : Option String
  command : Option String

/-- A body POSTed to the callback URL: its text, and whether it carries
`response_type: in_channel` (the success shape). -/
structure PostBody where
  text : String
  in_channel : Bool
  deriving DecidableEq, Repr

/-- Observable outcome of one `emojify` invocation: the POSTs made to
callback URLs, and whether an exception escaped the handler uncaught. -/
structure Stage2Result where
  posts : List (String × PostBody)
  uncaught : Bool
  deriving DecidableEq, Repr

/-- The message of the AttributeError raised by `args.func` when no
subcommand was parsed (no `func` attribute is set on the Namespace). -/
def attrErrMsg : String := "AttributeError: Namespace object has no attribute func"

/-- Model of `emojify(event, context)`.  The body runs under
`try ... except Exception`, whose handler POSTs `str(exc)` to
`response_url` — but `response_url` is a local assigned inside the `try`,
so when the failure precedes that assignment (missing environment
variable, undecodable SNS message, missing `response_url` key) the handler
itself raises NameError and nothing is posted (`uncaught = true`).
`SystemExit` from the argparse help action is not an `Exception` and also
escapes.  `runOp` is the dispatched handler (`args.func`): image fetch,
normalization, directory operation; its `error` is any exception raised
there. -/
def emojify (env : Stage2Env) (event : Option SnsMessage)
    (runOp : Command → Except String String) : Stage2Result :=
  match env.team with
  | none => ⟨[], true⟩
  | some _ =>
    match env.email with
    | none => ⟨[], true⟩
    | some _ =>
      match env.password with
      | none => ⟨[], true⟩
      | some _ =>
        match event with
        | none => ⟨[], true⟩
        | some msg =>
          match msg.response_url with
          | none => ⟨[], true⟩
          | some ru =>
            match msg.command with
            | none => ⟨[(ru, ⟨"KeyError: command", false⟩)], false⟩
            | some cmdline =>
              match parse_command_line cmdline with
              | .errValue e => ⟨[(ru, ⟨e, false⟩)], false⟩
              | .helpExit => ⟨[], true⟩
              | .parsed none => ⟨[(ru, ⟨attrErrMsg, false⟩)], false⟩
              | .parsed (some cmd) =>
                match runOp cmd with
                | .error e => ⟨[(ru, ⟨e, false⟩)], false⟩
                | .ok m => ⟨[(ru, ⟨m, true⟩)], false⟩

/-! ### Model of the Stage-1 dispatcher (dispatch) -/

/-- The fields of the form-decoded request body that `dispatch` reads.
`parse_qs` drops keys with empty values, so `text = some t` means the
`text` field was present and non-empty (`t` may still be whitespace). -/
structure Stage1Params where
  token : Option String
  text : Option String
  response_url : Option String

/-- The work item published to the SNS topic. -/
structure WorkItem where
  response_url : String
  command : String
  deriving DecidableEq, Repr

/-- Observable outcome of one `dispatch` invocation: the work item
published, if any, and the HTTP response body text (`none` when
`SystemExit` from the help action escaped and no response was produced). -/
structure Stage1Result where
  published : Option WorkItem
  response : Option String
  deriving DecidableEq, Repr

/-- The usage message returned when the `text` field is absent or empty. -/
def usageMessage : String :=
  "Usage:\n/emojify create [name] [url]\n/emojify delete [name]\n/emojify alias [name] [target]"

/-- The message of the exception raised on a shared-secret mismatch. -/
def authFailureMsg : String := "Error validating slack token..."

/-- Model of `dispatch(event, context)`.  Steps, in source order: read
`params[token][0]` (KeyError when absent, caught and returned); compare
with the configured secret; return the usage message when `text` is
absent; parse the command for early validation; publish the work item
(reading the topic environment variable first) and acknowledge.  Every
`Exception` is caught and turned into a response body; `SystemExit` from
the help action is not caught. -/
def dispatch (envToken : String) (envTopic : Option String) (p : Stage1Params) :
    Stage1Result :=
  match p.token with
  | none => ⟨none, some "KeyError: token"⟩
  | some tok =>
    if tok ≠ envToken then ⟨none, some authFailureMsg⟩
    else
      match p.text with
      | none => ⟨none, some usageMessage⟩
      | some command =>
        match parse_command_line command with
        | .errValue e => ⟨none, some e⟩
        | .helpExit => ⟨none, none⟩
        | .parsed _ =>
          match p.response_url with
          | none => ⟨none, some "KeyError: response_url"⟩
          | some ru =>
            match envTopic with
            | none => ⟨none, some "KeyError: EMOJIFY_SNS_TOPIC"⟩
            | some _ =>
              ⟨some ⟨ru, command⟩, some ("Processing command " ++ command ++ "...")⟩

/-! ### Helper lemmas -/

/-- Does the token begin with a dash? -/
def startsDash (t : String) : Bool :=
  match t.data with
  | c :: _ => c == '-'
  | [] => false

/-- A token that does not begin with a dash is classified as positional. -/
theorem classify_of_not_dash (t : String) (h : startsDash t = false) :
    classify t = .positional := by
  unfold classify classifyC
  unfold startsDash at h
  match ht : t.data with
  | [] => rfl
  | c :: rest =>
      rw [ht] at h
      simp only [beq_eq_false_iff_ne, ne_eq] at h
      simp [h]

/-- Running `subScan` over purely positional tokens accumulates them and
then applies the arity check. -/
theorem subScan_all_positional (cmdName : String) (arity : Nat) :
    ∀ args : List String, (∀ a ∈ args, classify a = .positional) →
    ∀ pos : List String,
      subScan cmdName arity false args pos false false =
        (if (pos ++ args).length < arity then
          .errValue ("the following arguments are required for " ++ cmdName)
        else if arity < (pos ++ args).length then .errValue "unrecognized arguments"
        else finalizeCmd cmdName (pos ++ args)) := by
  intro args
  induction args with
  | nil => intro _ pos; simp [subScan]
  | cons a rest ih =>
      intro h pos
      have ha : classify a = .positional := h a (by simp)
      simp only [subScan, Bool.false_eq_true, if_false, ha]
      rw [ih (fun b hb => h b (List.mem_cons_of_mem a hb)) (pos ++ [a])]
      simp [List.append_assoc]

/-- The subcommand names registered by `parse_command_line` are positional
tokens. -/
theorem classify_of_arity (t : String) (k : Nat) (h : arityOf t = some k) :
    classify t = .positional := by
  unfold arityOf at h
  split_ifs at h with h1 h2 h3
  · subst h1; decide
  · subst h2; decide
  · subst h3; decide

/-- The lexer consumes whitespace-only input without emitting a token. -/
theorem shlexGo_ws_only :
    ∀ cs : List Char, (∀ c ∈ cs, c ∈ wsChars) →
    ∀ acc : List String, shlexGo .ws [] false acc cs = .ok acc := by
  intro cs
  induction cs with
  | nil => intro _ _; rfl
  | cons c rest ih =>
      intro h acc
      have hc : c ∈ wsChars := h c (by simp)
      simp only [shlexGo, if_pos hc]
      exact ih (fun d hd => h d (List.mem_cons_of_mem c hd)) acc

/-- A whitespace-only command string parses to the Namespace with no
subcommand. -/
theorem parse_ws_only (s : String) (h : ∀ c ∈ s.data, c ∈ wsChars) :
    parse_command_line s = .parsed none := by
  unfold parse_command_line shlexSplit
  rw [shlexGo_ws_only s.data h []]
  rfl

/-- Evaluation of wand's coordinate normalization on an in-range
coordinate. -/
theorem wandAbs_eval (n m : Int) (h0 : 0 ≤ m) (h1 : m ≤ n) :
    wandAbs n m = .ok m := by
  unfold wandAbs
  rw [if_neg (by omega), if_pos h0]

/-- The crop step of `square_crop_and_resize` either raises or produces a
square: this is exactly the validity of the source's assert. -/
theorem cropStep_sq (w h : Int) (hw : 1 ≤ w) (hh : 1 ≤ h) :
    (∃ m, cropStep ⟨w, h⟩ = .error m) ∨ ∃ s, cropStep ⟨w, h⟩ = .ok ⟨s, s⟩ := by
  unfold cropStep wandCrop rem_rb rem_lt extraOf
  dsimp only
  by_cases hcmp : h < w
  · rw [if_pos hcmp]
    rw [max_eq_left (le_of_lt hcmp), min_eq_right (le_of_lt hcmp)]
    rw [wandAbs_eval w ((w - h) / 2) (by omega) (by omega)]
    rw [wandAbs_eval h 0 le_rfl (by omega)]
    rw [wandAbs_eval w (w - ((w - h) / 2 + (w - h) % 2) - 1) (by omega) (by omega)]
    rw [wandAbs_eval h (h - 1) (by omega) (by omega)]
    dsimp only
    by_cases hsmall : h = 1
    · left
      rw [if_pos (by omega)]
      exact ⟨_, rfl⟩
    · right
      rw [if_neg (by omega), if_neg (by omega),
        if_neg (by rintro ⟨-, -, h3, -⟩; omega)]
      refine ⟨h - 1, ?_⟩
      have e1 : w - ((w - h) / 2 + (w - h) % 2) - 1 - (w - h) / 2 = h - 1 := by omega
      have e2 : h - 1 - 0 = h - 1 := by omega
      rw [e1, e2]
  · rw [if_neg hcmp]
    have hle : w ≤ h := le_of_not_lt hcmp
    rw [max_eq_right hle, min_eq_left hle]
    rw [wandAbs_eval w 0 le_rfl (by omega)]
    rw [wandAbs_eval h ((h - w) / 2) (by omega) (by omega)]
    rw [wandAbs_eval w (w - 1) (by omega) (by omega)]
    rw [wandAbs_eval h (h - ((h - w) / 2 + (h - w) % 2) - 1) (by omega) (by omega)]
    dsimp only
    by_cases hsmall : w = 1
    · left
      rw [if_pos (by omega)]
      exact ⟨_, rfl⟩
    · right
      rw [if_neg (by omega), if_neg (by omega),
        if_neg (by rintro ⟨-, -, h3, -⟩; omega)]
      refine ⟨w - 1, ?_⟩
      have e1 : w - 1 - 0 = w - 1 := by omega
      have e2 : h - ((h - w) / 2 + (h - w) % 2) - 1 - (h - w) / 2 = w - 1 := by omega
      rw [e1, e2]

/-- A string append whose first part is non-empty is non-empty. -/
theorem append_ne_empty (s t : String) (h : s.length ≠ 0) : s ++ t ≠ "" := by
  intro hemp
  have h2 : (s ++ t).length = ("" : String).length := by rw [hemp]
  rw [String.length_append] at h2
  have h0 : ("" : String).length = 0 := rfl
  omega

/-! ### Claim theorems -/

/-- C1: the claim says every Stage-2 failure is caught and POSTed to the
callback URL, so exactly one terminal reply is always posted.  The code
contradicts this: when the failure precedes the assignment of
`response_url` (here: an undecodable SNS message, and a missing
`EMOJIFY_TEAM_NAME` environment variable), the `except` handler itself
raises NameError on the unbound `response_url`, the exception escapes, and
no reply at all is posted. -/
theorem emojify_predecode_failure_posts_nothing :
    emojify ⟨some "team", some "mail", some "pw"⟩ none
        (fun _ => Except.ok "done") = ⟨[], true⟩ ∧
    emojify ⟨none, some "mail", some "pw"⟩
        (some ⟨some "http://cb", some "create a b"⟩)
        (fun _ => Except.ok "done") = ⟨[], true⟩ :=
  ⟨rfl, rfl⟩

/-- C2 counterexample: the parser registers no `add` or `remove`
spellings; parsing them raises the invalid-choice error instead of
yielding the Create and Delete commands the claim promises. -/
theorem add_remove_not_recognized :
    parse_command_line "add foo http://x/y.png" = .errValue "invalid choice: add" ∧
    parse_command_line "remove foo" = .errValue "invalid choice: remove" := by
  constructor <;> decide

/-- C2 amended: the parser recognizes exactly the three subcommands
`create`, `delete` and `alias`, each under that single spelling and with
fixed positional arity; `add` and `remove` are not recognized and yield a
parse error. -/
theorem parser_subcommand_spellings (name url target : String)
    (hn : startsDash name = false) (hu : startsDash url = false)
    (ht : startsDash target = false) :
    parseTokens ["create", name, url] = .parsed (some (.create name url)) ∧
    parseTokens ["delete", name] = .parsed (some (.delete name)) ∧
    parseTokens ["alias", name, target] = .parsed (some (.aliasCmd name target)) ∧
    parseTokens ["add", name, url] = .errValue "invalid choice: add" ∧
    parseTokens ["remove", name] = .errValue "invalid choice: remove" := by
  have hn' := classify_of_not_dash name hn
  have hu' := classify_of_not_dash url hu
  have ht' := classify_of_not_dash target ht
  refine ⟨?_, ?_, ?_, ?_, ?_⟩
  · have h1 : classify "create" = .positional := by decide
    have h2 : arityOf "create" = some 2 := by decide
    simp only [parseTokens, topScan, h1, h2]
    rw [subScan_all_positional "create" 2 [name, url]
      (by intro a ha
          rcases List.mem_cons.mp ha with rfl | ha2
          · exact hn'
          · rcases List.mem_cons.mp ha2 with rfl | ha3
            · exact hu'
            · exact absurd ha3 (List.not_mem_nil a)) []]
    simp [finalizeCmd]
  · have h1 : classify "delete" = .positional := by decide
    have h2 : arityOf "delete" = some 1 := by decide
    simp only [parseTokens, topScan, h1, h2]
    rw [subScan_all_positional "delete" 1 [name]
      (by intro a ha
          rcases List.mem_cons.mp ha with rfl | ha2
          · exact hn'
          · exact absurd ha2 (List.not_mem_nil a)) []]
    simp [finalizeCmd]
  · have h1 : classify "alias" = .positional := by decide
    have h2 : arityOf "alias" = some 2 := by decide
    simp only [parseTokens, topScan, h1, h2]
    rw [subScan_all_positional "alias" 2 [name, target]
      (by intro a ha
          rcases List.mem_cons.mp ha with rfl | ha2
          · exact hn'
          · rcases List.mem_cons.mp ha2 with rfl | ha3
            · exact ht'
            · exact absurd ha3 (List.not_mem_nil a)) []]
    simp [finalizeCmd]
  · have h1 : classify "add" = .positional := by decide
    have h2 : arityOf "add" = none := by decide
    simp only [parseTokens, topScan, h1, h2]
    rfl
  · have h1 : classify "remove" = .positional := by decide
    have h2 : arityOf "remove" = none := by decide
    simp only [parseTokens, topScan, h1, h2]
    rfl

/-- C2 witness: the amended theorem applied at concrete tokens. -/
theorem parser_subcommand_spellings_witness :
    parseTokens ["create", "foo", "http://x/y.png"] =
      .parsed (some (.create "foo" "http://x/y.png")) ∧
    parseTokens ["add", "foo", "http://x/y.png"] =
      .errValue "invalid choice: add" :=
  ⟨(parser_subcommand_spellings "foo" "http://x/y.png" "bar"
      (by decide) (by decide) (by decide)).1,
   (parser_subcommand_spellings "foo" "http://x/y.png" "bar"
      (by decide) (by decide) (by decide)).2.2.2.1⟩

/-- C3: the claim says the crop leaves a square of side
`min(width, height)` and crops nothing when width equals height.  The code
passes `width - 1` and `height - 1` as the exclusive right/bottom
coordinates of wand's crop, so an already-square 10 by 10 image is cropped
to 9 by 9 before the resize: pixels are removed, the side is
`min(width, height) - 1`, and the shorter axis is cropped too. -/
theorem square_crop_shrinks_square_image :
    cropStep ⟨10, 10⟩ = .ok ⟨9, 9⟩ ∧ (Dims.mk 9 9) ≠ (Dims.mk 10 10) ∧
    cropStep ⟨10, 4⟩ = .ok ⟨3, 3⟩ := by
  refine ⟨by decide, by decide, by decide⟩

/-- C4: the claim says the cropped region is centered with margins
differing by at most one pixel.  For a 5 by 2 image (odd `extra = 3`) the
kept region along the width is `[1, 2)`: the left margin is 1 but the
right margin is 3, a difference of 2.  The resize itself does force the
final dimensions to `target_size`. -/
theorem square_crop_margins_uncentered :
    longAxisMargins ⟨5, 2⟩ = (1, 3) ∧
    cropStep ⟨5, 2⟩ = .ok ⟨1, 1⟩ ∧
    square_crop_and_resize ⟨5, 2⟩ 128 = .ok ⟨128, 128⟩ ∧
    ¬((3 : Int) - 1 ≤ 1) := by
  refine ⟨by decide, by decide, by decide, by decide⟩

/-- C5 counterexample: `create -h` has the wrong argument count for the
`create` subcommand, yet parsing it does not raise an error value: the
default argparse help action prints the help text to the console and
raises SystemExit, which the `error` override does not intercept and
which `except Exception` does not catch, terminating the process. -/
theorem wrong_arity_help_flag_exits :
    parse_command_line "create -h" = .helpExit ∧
    parse_command_line "-h" = .helpExit := by
  constructor <;> decide

/-- C5 amended: for command strings with an unknown subcommand, a wrong
argument count, or malformed tokenization, parsing raises an error value
with a non-empty human-readable message and neither exits nor prints —
except for strings containing a help token (`-h` or `--help`), which
print help to the console and raise SystemExit. -/
theorem parse_failures_raise_values :
    (∀ (t : String) (rest : List String), classify t = .positional →
      arityOf t = none →
      ∃ m, parseTokens (t :: rest) = .errValue m ∧ m ≠ "") ∧
    (∀ (t : String) (k : Nat) (args : List String), arityOf t = some k →
      (∀ a ∈ args, classify a = .positional) → args.length ≠ k →
      ∃ m, parseTokens (t :: args) = .errValue m ∧ m ≠ "") ∧
    (∀ s e, shlexSplit s = .error e → parse_command_line s = .errValue e) := by
  refine ⟨?_, ?_, ?_⟩
  · intro t rest h1 h2
    refine ⟨"invalid choice: " ++ t, ?_, ?_⟩
    · simp only [parseTokens, topScan, h1, h2]
    · exact append_ne_empty "invalid choice: " t (by decide)
  · intro t k args h1 h2 h3
    have ht := classify_of_arity t k h1
    by_cases hlt : args.length < k
    · refine ⟨"the following arguments are required for " ++ t, ?_, ?_⟩
      · simp only [parseTokens, topScan, ht, h1]
        rw [subScan_all_positional t k args h2 []]
        simp only [List.nil_append]
        rw [if_pos hlt]
      · exact append_ne_empty "the following arguments are required for " t (by decide)
    · refine ⟨"unrecognized arguments", ?_, by decide⟩
      simp only [parseTokens, topScan, ht, h1]
      rw [subScan_all_positional t k args h2 []]
      simp only [List.nil_append]
      rw [if_neg hlt, if_pos (by omega)]
  · intro s e h
    unfold parse_command_line
    rw [h]

/-- C5 witness: the amended theorem applied to a wrong-arity input. -/
theorem parse_failures_raise_values_witness :
    ∃ m, parseTokens ["create", "x"] = .errValue m ∧ m ≠ "" :=
  parse_failures_raise_values.2.1 "create" 2 ["x"] (by decide)
    (by decide) (by decide)

/-- C6: each directory operation checks its existence precondition
against the session page snapshot and raises before issuing any mutating
HTTP call: create on an existing name fails with the already-exists error
and attempts no upload; remove on a non-existent name fails with the
does-not-exist error; alias on an already-existing name fails with the
already-exists error; alias on a non-existent target fails with no
mutating call issued. -/
theorem directory_ops_guard_preconditions (snapshot name target : String)
    (tf httpOk : Bool) :
    (emoji_exists snapshot name = true →
      upload_emoji snapshot httpOk name =
        ⟨[], .error ("Emoji " ++ name ++ " already exists.")⟩) ∧
    (emoji_exists snapshot name = false →
      delete_emoji snapshot tf httpOk name =
        ⟨[], .error ("Emoji " ++ name ++ " does not exist.")⟩) ∧
    (emoji_exists snapshot name = true →
      alias_emoji snapshot httpOk name target =
        ⟨[], .error ("Emoji " ++ name ++ " already exists.")⟩) ∧
    (emoji_exists snapshot target = false →
      (alias_emoji snapshot httpOk name target).calls = [] ∧
      ∃ m, (alias_emoji snapshot httpOk name target).result = .error m) := by
  refine ⟨?_, ?_, ?_, ?_⟩
  · intro h; unfold upload_emoji; rw [if_pos h]
  · intro h; unfold delete_emoji; rw [if_pos h]
  · intro h; unfold alias_emoji; rw [if_pos h]
  · intro h
    unfold alias_emoji
    by_cases hn : emoji_exists snapshot name = true
    · rw [if_pos hn]
      exact ⟨rfl, _, rfl⟩
    · rw [if_neg hn, if_pos h]
      exact ⟨rfl, _, rfl⟩

/-- C6 witness: the theorem applied at a concrete snapshot. -/
theorem directory_ops_guard_preconditions_witness :
    upload_emoji ":cat: :dog:" true "cat" =
      ⟨[], .error ("Emoji " ++ "cat" ++ " already exists.")⟩ ∧
    delete_emoji ":cat: :dog:" true true "fox" =
      ⟨[], .error ("Emoji " ++ "fox" ++ " does not exist.")⟩ :=
  ⟨(directory_ops_guard_preconditions ":cat: :dog:" "cat" "dog" true true).1
      (by decide),
   (directory_ops_guard_preconditions ":cat: :dog:" "fox" "dog" true true).2.1
      (by decide)⟩

/-- C7: the Stage-1 dispatcher publishes a work item only when the
shared-secret token matches, the text field is present and the command
parses without raising; a wrong token yields the auth-failure message, an
absent (or empty, since `parse_qs` drops empty values) text field yields
the usage message, and a parse error is returned immediately — with no
publish in any of the three cases. -/
theorem dispatch_publish_gating (envToken : String) (envTopic : Option String)
    (p : Stage1Params) :
    (∀ w, (dispatch envToken envTopic p).published = some w →
      p.token = some envToken ∧
      ∃ r, p.text = some w.command ∧
        parse_command_line w.command = .parsed r ∧
        p.response_url = some w.response_url) ∧
    (∀ tok, p.token = some tok → tok ≠ envToken →
      dispatch envToken envTopic p = ⟨none, some authFailureMsg⟩) ∧
    (p.token = some envToken → p.text = none →
      dispatch envToken envTopic p = ⟨none, some usageMessage⟩) ∧
    (∀ c e, p.token = some envToken → p.text = some c →
      parse_command_line c = .errValue e →
      dispatch envToken envTopic p = ⟨none, some e⟩) := by
  obtain ⟨ptok, ptext, pru⟩ := p
  refine ⟨?_, ?_, ?_, ?_⟩
  · intro w hw
    cases ptok with
    | none => simp [dispatch] at hw
    | some tok =>
      simp only [dispatch] at hw
      by_cases htok : tok = envToken
      · subst htok
        rw [if_neg (by simp)] at hw
        cases ptext with
        | none => simp at hw
        | some c =>
          dsimp only at hw
          cases hpr : parse_command_line c with
          | errValue e => rw [hpr] at hw; simp at hw
          | helpExit => rw [hpr] at hw; simp at hw
          | parsed r =>
            rw [hpr] at hw
            cases pru with
            | none => simp at hw
            | some ru =>
              cases envTopic with
              | none => simp at hw
              | some tp =>
                dsimp only at hw
                simp only [Option.some.injEq] at hw
                subst hw
                exact ⟨rfl, r, rfl, hpr, rfl⟩
      · rw [if_pos htok] at hw
        simp at hw
  · intro tok htok hne
    cases ptok with
    | none => simp at htok
    | some tok2 =>
      simp only [Option.some.injEq] at htok
      subst htok
      simp only [dispatch]
      rw [if_pos hne]
  · intro h1 h2
    cases ptok with
    | none => simp at h1
    | some tok =>
      simp only [Option.some.injEq] at h1
      subst h1
      cases ptext with
      | some c => simp at h2
      | none =>
        simp only [dispatch]
        rw [if_neg (by simp)]
  · intro c e h1 h2 h3
    cases ptok with
    | none => simp at h1
    | some tok =>
      simp only [Option.some.injEq] at h1
      subst h1
      cases ptext with
      | none => simp at h2
      | some c2 =>
        simp only [Option.some.injEq] at h2
        subst h2
        simp only [dispatch]
        rw [if_neg (by simp), h3]

/-- C7 witness: the theorem applied to a request carrying the wrong
shared-secret token. -/
theorem dispatch_publish_gating_witness :
    dispatch "secret" (some "topic")
        ⟨some "wrong", some "create a b", some "http://cb"⟩ =
      ⟨none, some authFailureMsg⟩ :=
  (dispatch_publish_gating "secret" (some "topic")
      ⟨some "wrong", some "create a b", some "http://cb"⟩).2.1
    "wrong" rfl (by decide)

/-- C8 counterexample: the claim says a successful parse guarantees
`name` is non-empty, Create URLs are absolute, and Alias has
`name` different from `target`; but `alias x x` parses successfully into
an Alias command whose name equals its target. -/
theorem alias_self_accepted :
    parse_command_line "alias x x" = .parsed (some (.aliasCmd "x" "x")) := by
  decide

/-- C8 amended: a successful parse imposes no semantic validation at all:
the name may be the empty token, the Create url is an arbitrary token not
checked to be an absolute URL, and Alias accepts a name equal to its
target. -/
theorem parser_enforces_no_invariants :
    parse_command_line "alias x x" = .parsed (some (.aliasCmd "x" "x")) ∧
    parseTokens ["create", "", "u"] = .parsed (some (.create "" "u")) ∧
    parse_command_line "create foo notaurl" =
      .parsed (some (.create "foo" "notaurl")) := by
  refine ⟨by decide, by decide, by decide⟩

/-- C9: for every image with positive width and height, whenever the crop
step returns (in either branch, or the already-square case), the cropped
width equals the cropped height, so the assert in
`square_crop_and_resize` never fails. -/
theorem crop_assert_always_holds (w h size : Int) (hw : 1 ≤ w) (hh : 1 ≤ h) :
    square_crop_and_resize ⟨w, h⟩ size ≠ .assertFail := by
  unfold square_crop_and_resize
  rcases cropStep_sq w h hw hh with ⟨m, hm⟩ | ⟨s, hs⟩
  · rw [hm]; simp
  · rw [hs]; simp

/-- C9 witness: the theorem applied to a 5 by 3 image. -/
theorem crop_assert_always_holds_witness :
    (1 : Int) ≤ 5 ∧ (1 : Int) ≤ 3 ∧
    square_crop_and_resize ⟨5, 3⟩ 128 ≠ .assertFail :=
  ⟨by norm_num, by norm_num,
   crop_assert_always_holds 5 3 128 (by norm_num) (by norm_num)⟩

/-- C10: a whitespace-only command string tokenizes to zero tokens and
parses successfully into the Namespace carrying no subcommand, so a
whitespace-only Stage-1 text field passes early validation and is
forwarded to the transport, and Stage-2 then fails on the missing `func`
attribute and posts that error to the callback. -/
theorem empty_tokenization_forwarded (s ru tok topic team em pw : String)
    (runOp : Command → Except String String)
    (hws : ∀ c ∈ s.data, c ∈ wsChars) :
    parse_command_line s = .parsed none ∧
    dispatch tok (some topic) ⟨some tok, some s, some ru⟩ =
      ⟨some ⟨ru, s⟩, some ("Processing command " ++ s ++ "...")⟩ ∧
    emojify ⟨some team, some em, some pw⟩ (some ⟨some ru, some s⟩) runOp =
      ⟨[(ru, ⟨attrErrMsg, false⟩)], false⟩ := by
  have hp := parse_ws_only s hws
  refine ⟨hp, ?_, ?_⟩
  · simp [dispatch, hp]
  · simp [emojify, hp]

/-- C10 witness: the theorem applied to the single-space command text. -/
theorem empty_tokenization_forwarded_witness :
    parse_command_line " " = .parsed none ∧
    dispatch "tok" (some "topic") ⟨some "tok", some " ", some "http://cb"⟩ =
      ⟨some ⟨"http://cb", " "⟩, some ("Processing command " ++ " " ++ "...")⟩ ∧
    emojify ⟨some "team", some "mail", some "pw"⟩
        (some ⟨some "http://cb", some " "⟩) (fun _ => Except.ok "done") =
      ⟨[("http://cb", ⟨attrErrMsg, false⟩)], false⟩ :=
  empty_tokenization_forwarded " " "http://cb" "tok" "topic" "team" "mail" "pw"
    (fun _ => Except.ok "done") (by decide)

end EmojifySpec
